import Mathlib

/-!
Verification of the JMA weather scraper (`get_weather_data_from_JMA.py`).

The script is a linear pipeline: for every day from 2009-01-01 to today it
builds a request URL, issues one GET, parses the `data2_s` HTML table into
12-field records, accumulates the records per month and writes one CSV file
per non-empty month.  The definitions below are a shallow embedding of that
script: the HTML/network side is abstracted to the data the code actually
consumes (a status code and, when present, the table's rows as lists of
cell texts), everything else is translated directly from the source.
-/

/-- Python `"{:02d}".format n` for a natural number. -/
def pad2 (n : Nat) : String := if n < 10 then "0" ++ toString n else toString n

/-- The date string `f"{year}{month:02d}{day:02d}"` prepended on line 58. -/
def dateStr (year month day : Nat) : String :=
  toString year ++ pad2 month ++ pad2 day

/-- The request URL built on line 27 of the source. -/
def requestUrl (year month day : Nat) : String :=
  "https://www.data.jma.go.jp/stats/etrn/view/10min_s1.php?prec_no=44&block_no=47662&year="
    ++ toString year ++ "&month=" ++ pad2 month ++ "&day=" ++ pad2 day

/-- The header marker tested on line 53 of the source (`"時分"`). -/
def headerMarker : String := "時分"

/-- `matchesAt needle hay`: `needle` is an initial segment of `hay`. -/
def matchesAt : List Char → List Char → Bool
  | [], _ => true
  | _ :: _, [] => false
  | a :: as, b :: bs => a == b && matchesAt as bs

/-- `occursIn needle hay`: `needle` occurs contiguously somewhere in `hay`. -/
def occursIn (needle : List Char) : List Char → Bool
  | [] => matchesAt needle []
  | b :: bs => matchesAt needle (b :: bs) || occursIn needle bs

/-- Python's substring test `needle in hay` on strings. -/
def containsSub (needle hay : String) : Bool := occursIn needle.data hay.data

/-- One iteration of the row loop of `fetch_data` (lines 48-59), applied to the
cell texts of one table row: skip the row if it is empty or its first cell
contains the header marker; keep it if it has at least 11 cells, prepending
the date string and truncating to the first 12 fields. -/
def processRow (date : String) (colsText : List String) : Option (List String) :=
  if colsText.isEmpty then none
  else if containsSub headerMarker (colsText.headD "") then none
  else if 11 ≤ colsText.length then some ((date :: colsText).take 12)
  else none

/-- The whole row loop of `fetch_data` (lines 46-59): the records collected in
`data`, in row order. -/
def parseRows (date : String) (rows : List (List String)) : List (List String) :=
  rows.filterMap (processRow date)

/-- Python list indexing, which raises `IndexError` when out of range. -/
def pyIndex (xs : List String) (i : Nat) : Except String String :=
  match xs.get? i with
  | some v => Except.ok v
  | none => Except.error "IndexError"

/-- The row-loop body with Python's evaluation order made explicit: the test
`not cols_text or "時分" in cols_text[0]` evaluates `cols_text[0]` (which can
raise `IndexError`) only when the first disjunct is false, i.e. only on a
non-empty list.  Returns `Except.error` exactly when an indexing error would
be raised. -/
def pyRowStep (date : String) (colsText : List String) :
    Except String (Option (List String)) :=
  if colsText.isEmpty then Except.ok none
  else
    match pyIndex colsText 0 with
    | Except.error e => Except.error e
    | Except.ok c0 =>
      if containsSub headerMarker c0 then Except.ok none
      else if 11 ≤ colsText.length then Except.ok (some ((date :: colsText).take 12))
      else Except.ok none

/- ### Helper lemmas about the parser -/

theorem processRow_eq_some (date : String) (r : List String) (rec : List String) :
    processRow date r = some rec ↔
      r ≠ [] ∧ containsSub headerMarker (r.headD "") = false ∧
        11 ≤ r.length ∧ rec = (date :: r).take 12 := by
  rcases r with _ | ⟨c, cs⟩
  · simp [processRow]
  · by_cases hm : containsSub headerMarker c = true
    · simp [processRow, hm]
    · by_cases hlen : 10 ≤ cs.length
      · simp [processRow, hm, hlen, eq_comm]
      · simp [processRow, hm, hlen]

theorem processRow_isSome (date : String) (r : List String) :
    (processRow date r).isSome = true ↔
      r ≠ [] ∧ containsSub headerMarker (r.headD "") = false ∧ 11 ≤ r.length := by
  constructor
  · intro hs
    obtain ⟨rec, hrec⟩ := Option.isSome_iff_exists.1 hs
    obtain ⟨h1, h2, h3, -⟩ := (processRow_eq_some date r rec).1 hrec
    exact ⟨h1, h2, h3⟩
  · rintro ⟨h1, h2, h3⟩
    rw [(processRow_eq_some date r ((date :: r).take 12)).2 ⟨h1, h2, h3, rfl⟩]
    rfl

theorem processRow_some_shape (date : String) (r : List String) (rec : List String)
    (hp : processRow date r = some rec) :
    rec = date :: r.take 11 ∧ rec.length = 12 ∧ rec.headD "" = date := by
  obtain ⟨-, -, hlen, hrec⟩ := (processRow_eq_some date r rec).1 hp
  have htake : (date :: r).take 12 = date :: r.take 11 := rfl
  subst hrec
  refine ⟨htake, ?_, by rw [htake]; rfl⟩
  rw [htake]
  simp only [List.length_cons, List.length_take]
  omega

theorem length_filterMap_of_all_some {α β : Type} (f : α → Option β) :
    ∀ l : List α, (∀ a ∈ l, (f a).isSome = true) → (l.filterMap f).length = l.length := by
  intro l
  induction l with
  | nil => intro _; rfl
  | cons a l ih =>
    intro hall
    rcases hfa : f a with _ | b
    · exact absurd (hfa ▸ hall a (List.mem_cons_self a l)) (by simp)
    · rw [List.filterMap_cons_some hfa, List.length_cons, List.length_cons,
        ih (fun x hx => hall x (List.mem_cons_of_mem a hx))]

/- ### Claim theorems about the parser -/

/-- C1: for a table made of one header row (first cell containing the marker)
followed by N valid data rows (each with at least 11 cells and no marker in
the first cell), parsing for the date 2023-05-10 yields exactly N records,
each of length exactly 12 and each starting with "20230510". -/
theorem parse_header_and_valid_rows (header : List String) (dataRows : List (List String))
    (hheader : containsSub headerMarker (header.headD "") = true)
    (hvalid : ∀ r ∈ dataRows, 11 ≤ r.length ∧ containsSub headerMarker (r.headD "") = false) :
    (parseRows (dateStr 2023 5 10) (header :: dataRows)).length = dataRows.length ∧
      ∀ rec ∈ parseRows (dateStr 2023 5 10) (header :: dataRows),
        rec.length = 12 ∧ rec.headD "" = "20230510" := by
  have hdrop : processRow (dateStr 2023 5 10) header = none := by
    rcases hp : processRow (dateStr 2023 5 10) header with _ | rec
    · rfl
    · obtain ⟨-, hmark, -, -⟩ := (processRow_eq_some _ _ _).1 hp
      rw [hheader] at hmark
      exact absurd hmark (by simp)
  have hskip : parseRows (dateStr 2023 5 10) (header :: dataRows)
      = parseRows (dateStr 2023 5 10) dataRows := by
    unfold parseRows
    rw [List.filterMap_cons_none hdrop]
  constructor
  · rw [hskip]
    refine length_filterMap_of_all_some _ dataRows (fun r hr => ?_)
    rw [processRow_isSome]
    obtain ⟨hlen, hmark⟩ := hvalid r hr
    exact ⟨by intro hnil; rw [hnil] at hlen; simp at hlen, hmark, hlen⟩
  · intro rec hrec
    rw [hskip] at hrec
    obtain ⟨r, -, hp⟩ := List.mem_filterMap.1 hrec
    obtain ⟨-, hlen, hhead⟩ := processRow_some_shape _ _ _ hp
    exact ⟨hlen, by rw [hhead]; rfl⟩

/-- C1 witness: a concrete table with a header row and two valid data rows. -/
theorem parse_header_and_valid_rows_witness :
    (parseRows (dateStr 2023 5 10)
        (["時分", "h2"] :: [["00:10", "a", "b", "c", "d", "e", "f", "g", "h", "i", "j"],
          ["00:20", "a", "b", "c", "d", "e", "f", "g", "h", "i", "j", "k"]])).length = 2 ∧
      ∀ rec ∈ parseRows (dateStr 2023 5 10)
        (["時分", "h2"] :: [["00:10", "a", "b", "c", "d", "e", "f", "g", "h", "i", "j"],
          ["00:20", "a", "b", "c", "d", "e", "f", "g", "h", "i", "j", "k"]]),
        rec.length = 12 ∧ rec.headD "" = "20230510" :=
  parse_header_and_valid_rows _ _ (by decide) (by decide)

/-- C3: a row contributes a record exactly when its cell-text list is
non-empty, its first cell does not contain the marker "時分", and it has at
least 11 cells. -/
theorem row_contributes_iff (date : String) (colsText : List String) :
    (processRow date colsText).isSome = true ↔
      colsText ≠ [] ∧ containsSub headerMarker (colsText.headD "") = false ∧
        11 ≤ colsText.length :=
  processRow_isSome date colsText

/-- C7: a kept row with more than 11 cells yields the date followed by exactly
the row's first 11 cell texts; trailing cells are silently discarded. -/
theorem kept_row_truncated (date : String) (colsText : List String)
    (hlen : 11 < colsText.length)
    (hmark : containsSub headerMarker (colsText.headD "") = false) :
    processRow date colsText = some (date :: colsText.take 11) ∧
      (date :: colsText.take 11).length = 12 := by
  have hsome : processRow date colsText = some ((date :: colsText).take 12) := by
    rw [processRow_eq_some]
    exact ⟨by intro hnil; rw [hnil] at hlen; simp at hlen, hmark, Nat.le_of_lt hlen, rfl⟩
  obtain ⟨hshape, hl, -⟩ := processRow_some_shape _ _ _ hsome
  rw [hsome, hshape]
  exact ⟨rfl, hshape ▸ hl⟩

/-- C7 witness: a 13-cell row is truncated to the date plus its first 11 cells. -/
theorem kept_row_truncated_witness :
    processRow "20230510"
        ["00:10", "a", "b", "c", "d", "e", "f", "g", "h", "i", "j", "k", "l"]
      = some ["20230510", "00:10", "a", "b", "c", "d", "e", "f", "g", "h", "i", "j"] ∧
      (("20230510" : String) ::
        (["00:10", "a", "b", "c", "d", "e", "f", "g", "h", "i", "j", "k", "l"].take 11)).length
        = 12 :=
  kept_row_truncated "20230510" _ (by decide) (by decide)

/-- C10: the row loop is total on every row shape: the emptiness test comes
before the first-cell access, so the Python-order evaluation never raises an
indexing error and agrees with `processRow` on every list, including `[]`. -/
theorem row_loop_total (date : String) (colsText : List String) :
    pyRowStep date colsText = Except.ok (processRow date colsText) := by
  rcases colsText with _ | ⟨c, cs⟩
  · rfl
  · by_cases hm : containsSub headerMarker c = true
    · simp [pyRowStep, pyIndex, processRow, hm]
    · by_cases hlen : 10 ≤ cs.length
      · simp [pyRowStep, pyIndex, processRow, hm, hlen]
      · simp [pyRowStep, pyIndex, processRow, hm, hlen]

/- ### The calendar -/

/-- CPython `calendar.isleap`:
`year % 4 == 0 and (year % 100 != 0 or year % 400 == 0)`. -/
def isleap (year : Nat) : Bool :=
  year % 4 == 0 && (year % 100 != 0 || year % 400 == 0)

/-- CPython `calendar.mdays`: day counts per month, index 0 unused. -/
def mdays : List Nat := [0, 31, 28, 31, 30, 31, 30, 31, 31, 30, 31, 30, 31]

/-- CPython `calendar.monthrange(year, month)[1]` for months 1..12:
`mdays[month] + (month == February and isleap(year))`. -/
def monthrange (year month : Nat) : Nat :=
  mdays.getD month 0 + (if month = 2 ∧ isleap year then 1 else 0)

/- ### The fetcher, the per-month aggregation and the CSV writer -/

/-- What `fetch_data` consumes of one day's HTTP exchange: the response status
code and, when the `data2_s` table is present in the body, that table's rows
as lists of cell texts (`none` when `soup.find` returns no table). -/
structure DayResponse where
  statusCode : Nat
  tableRows : Option (List (List String))
deriving DecidableEq

/-- What one call of `fetch_data` does: the GET requests it issues, in order,
and the parsed records (`none` models the `return None` branches). -/
structure FetchOutcome where
  requests : List String
  result : Option (List (List String))
deriving DecidableEq

/-- `fetch_data` (lines 26-67): issue one GET to the request URL; return
`None` on a non-200 status or a missing table, otherwise the records of the
row loop.  The function is total: every branch returns normally. -/
def fetch_data (year month day : Nat) (resp : DayResponse) : FetchOutcome :=
  ⟨[requestUrl year month day],
    if resp.statusCode ≠ 200 then none
    else
      match resp.tableRows with
      | none => none
      | some rows => some (parseRows (dateStr year month day) rows)⟩

/-- The fixed column list of the DataFrame (lines 62-66), which `to_csv`
writes as the header row. -/
def header12 : List String :=
  ["日付", "時間", "気圧(現地)", "気圧(海面)", "降水量(mm)",
   "気温", "相対湿度", "風向・風速(平均)", "風向・風速(風向-平均)",
   "風向・風速(最大瞬間)", "風向・風速(風向-最大瞬間)", "日照時間"]

/-- One CSV file as written by `df_month.to_csv(filename, index=False,
encoding="utf-8-sig")` (line 105): its name, its header row, its data rows
in order, and its encoding. -/
structure CsvFile where
  filename : String
  header : List String
  dataRows : List (List String)
  encoding : String
deriving DecidableEq

/-- The `monthly_data` accumulation of one month (lines 92-99): for the days
`1 .. dayEnd` in order, keep each day's result exactly when it is not `None`
and not empty (`df_day is not None and not df_day.empty`). -/
def monthlyData (dayEnd : Nat) (dayResult : Nat → Option (List (List String))) :
    List (List (List String)) :=
  (List.range' 1 dayEnd).filterMap fun day =>
    match dayResult day with
    | none => none
    | some recs => if recs.isEmpty then none else some recs

/-- The tail of the month loop (lines 101-108): when `monthly_data` is
non-empty, concatenate it (`pd.concat`) and write `{year}{month:02d}.csv`
with the fixed header and utf-8-sig encoding; otherwise write nothing. -/
def processMonth (year month dayEnd : Nat)
    (dayResult : Nat → Option (List (List String))) : Option CsvFile :=
  if (monthlyData dayEnd dayResult).isEmpty then none
  else
    some ⟨toString year ++ pad2 month ++ ".csv", header12,
      (monthlyData dayEnd dayResult).flatten, "utf-8-sig"⟩

/-- `main` (lines 69-108) with the start date 2009-01-01 fixed as in the
source, `today` given as `(endYear, endMonth, endDay)`, and the network
modelled as a map `world` from a date to that day's response: the written
CSV files, keyed by the `(year, month)` of the month loop that wrote them. -/
def main_run (endYear endMonth endDay : Nat)
    (world : Nat → Nat → Nat → DayResponse) : List (Nat × Nat × CsvFile) :=
  (List.range' 2009 (endYear + 1 - 2009)).flatMap fun year =>
    let monthStart := if 2009 < year then 1 else 1
    let monthEnd := if year < endYear then 12 else endMonth
    (List.range' monthStart (monthEnd + 1 - monthStart)).flatMap fun month =>
      let dayEnd := if year = endYear ∧ month = endMonth then endDay
        else monthrange year month
      match processMonth year month dayEnd
          (fun day => (fetch_data year month day (world year month day)).result) with
      | none => []
      | some file => [(year, month, file)]

/- ### Helper lemmas about the aggregation -/

theorem monthlyData_flatten (n : Nat) (f : Nat → Option (List (List String))) :
    (monthlyData n f).flatten = (List.range' 1 n).flatMap fun d => (f d).getD [] := by
  unfold monthlyData
  generalize List.range' 1 n = l
  induction l with
  | nil => rfl
  | cons d l ih =>
    rw [List.filterMap_cons, List.flatMap_cons]
    rcases hf : f d with _ | recs
    · simpa only [hf, Option.getD_none, List.nil_append] using ih
    · by_cases he : recs.isEmpty = true
      · have he2 : recs = [] := List.isEmpty_iff.1 he
        simpa only [hf, if_pos he, Option.getD_some, he2, List.nil_append] using ih
      · simp only [hf, if_neg he, Option.getD_some, List.flatten_cons]
        rw [ih]

theorem processMonth_some_file (y m n : Nat) (f : Nat → Option (List (List String)))
    (file : CsvFile) (h : processMonth y m n f = some file) :
    file = ⟨toString y ++ pad2 m ++ ".csv", header12,
      (monthlyData n f).flatten, "utf-8-sig"⟩ := by
  unfold processMonth at h
  by_cases he : (monthlyData n f).isEmpty = true
  · rw [if_pos he] at h
    exact absurd h (by simp)
  · rw [if_neg he] at h
    injection h with h
    exact h.symm

theorem processMonth_isSome_iff (y m n : Nat) (f : Nat → Option (List (List String))) :
    (processMonth y m n f).isSome = true ↔
      ∃ d, (1 ≤ d ∧ d ≤ n) ∧ ∃ recs, f d = some recs ∧ recs ≠ [] := by
  unfold processMonth
  by_cases he : (monthlyData n f).isEmpty = true
  · rw [if_pos he]
    simp only [Option.isSome_none, Bool.false_eq_true, false_iff]
    rw [List.isEmpty_iff] at he
    unfold monthlyData at he
    rw [List.filterMap_eq_nil_iff] at he
    rintro ⟨d, ⟨hd1, hd2⟩, recs, hf, hne⟩
    have hgd := he d (List.mem_range'_1.2 ⟨hd1, by omega⟩)
    simp only [hf] at hgd
    by_cases hre : recs.isEmpty = true
    · exact hne (List.isEmpty_iff.1 hre)
    · rw [if_neg hre] at hgd
      exact absurd hgd (by simp)
  · rw [if_neg he]
    simp only [Option.isSome_some, true_iff]
    obtain ⟨recs, hmem⟩ : ∃ recs, recs ∈ monthlyData n f := by
      rcases hml : monthlyData n f with _ | ⟨r0, rest⟩
      · exact absurd (by rw [hml]; rfl) he
      · exact ⟨r0, List.mem_cons_self r0 rest⟩
    unfold monthlyData at hmem
    obtain ⟨d, hdmem, hgd⟩ := List.mem_filterMap.1 hmem
    rw [List.mem_range'_1] at hdmem
    rcases hf : f d with _ | recs0
    · exact absurd hgd (by simp [hf])
    · simp only [hf] at hgd
      by_cases hre : recs0.isEmpty = true
      · rw [if_pos hre] at hgd
        exact absurd hgd (by simp)
      · rw [if_neg hre] at hgd
        injection hgd with hgd
        refine ⟨d, ⟨hdmem.1, by omega⟩, recs0, hf, fun hnil => hre ?_⟩
        rw [hnil]
        rfl

/- ### Claim theorems about fetching, aggregation and writing -/

/-- C4: on a non-200 status or a missing table, `fetch_data` issues exactly
the one GET to the request URL, returns the no-data outcome without raising,
and the surrounding day loop still processes every other day of the month:
the failing day contributes zero records while the remaining days contribute
exactly what their own fetches produce. -/
theorem fetch_failure_no_records (y m d : Nat) (resp : DayResponse)
    (hfail : resp.statusCode ≠ 200 ∨ resp.tableRows = none) :
    (fetch_data y m d resp).requests = [requestUrl y m d] ∧
      (fetch_data y m d resp).result = none ∧
      ∀ n (w : Nat → Nat → Nat → DayResponse), w y m d = resp →
        (monthlyData n fun day => (fetch_data y m day (w y m day)).result).flatten
          = (List.range' 1 n).flatMap fun day =>
              if day = d then []
              else ((fetch_data y m day (w y m day)).result).getD [] := by
  have hres : (fetch_data y m d resp).result = none := by
    show (if resp.statusCode ≠ 200 then none
      else match resp.tableRows with
        | none => none
        | some rows => some (parseRows (dateStr y m d) rows)) = none
    by_cases hs : resp.statusCode ≠ 200
    · rw [if_pos hs]
    · rw [if_neg hs]
      rcases hfail with hs2 | ht
      · exact absurd hs2 hs
      · rw [ht]
  refine ⟨rfl, hres, fun n w hw => ?_⟩
  rw [monthlyData_flatten]
  refine List.flatMap_congr (fun day hday => ?_)
  by_cases hdd : day = d
  · rw [if_pos hdd, hdd, hw, hres]
    rfl
  · rw [if_neg hdd]

/-- C4 witness: a 404 response on 2023-05-10; the fetch issues its one GET,
yields no records, and the two-day month still processes day 1. -/
theorem fetch_failure_no_records_witness :
    (fetch_data 2023 5 10 ⟨404, some [["x"]]⟩).requests = [requestUrl 2023 5 10] ∧
      (fetch_data 2023 5 10 ⟨404, some [["x"]]⟩).result = none ∧
      ∀ n (w : Nat → Nat → Nat → DayResponse), w 2023 5 10 = ⟨404, some [["x"]]⟩ →
        (monthlyData n fun day => (fetch_data 2023 5 day (w 2023 5 day)).result).flatten
          = (List.range' 1 n).flatMap fun day =>
              if day = 10 then []
              else ((fetch_data 2023 5 day (w 2023 5 day)).result).getD [] :=
  fetch_failure_no_records 2023 5 10 ⟨404, some [["x"]]⟩ (Or.inl (by decide))

/-- C5: a month's CSV file exists exactly when some day of the month produced
at least one record, and a written file carries the name
`{year}{month:02d}.csv`, the fixed 12-column header, and utf-8-sig
(UTF-8 with byte-order mark) encoding. -/
theorem month_file_written_iff (y m n : Nat) (f : Nat → Option (List (List String))) :
    ((processMonth y m n f).isSome = true ↔
        ∃ d, (1 ≤ d ∧ d ≤ n) ∧ ∃ recs, f d = some recs ∧ recs ≠ []) ∧
      ∀ file, processMonth y m n f = some file →
        file.filename = toString y ++ pad2 m ++ ".csv" ∧
          file.header = header12 ∧ file.encoding = "utf-8-sig" := by
  refine ⟨processMonth_isSome_iff y m n f, fun file h => ?_⟩
  rw [processMonth_some_file y m n f file h]
  exact ⟨rfl, rfl, rfl⟩

/-- C6: the data rows of a written month are exactly the concatenation, in
increasing day order, of the records of each day, days without data
contributing nothing. -/
theorem month_rows_day_concat (y m n : Nat) (f : Nat → Option (List (List String)))
    (file : CsvFile) (h : processMonth y m n f = some file) :
    file.dataRows = (List.range' 1 n).flatMap fun d => (f d).getD [] := by
  rw [processMonth_some_file y m n f file h]
  exact monthlyData_flatten n f

/-- A concrete two-day month: day 1 yields five records, day 2 three. -/
def exDayResult : Nat → Option (List (List String)) := fun d =>
  if d = 1 then some [["a1"], ["a2"], ["a3"], ["a4"], ["a5"]]
  else if d = 2 then some [["b1"], ["b2"], ["b3"]] else none

/-- The file `processMonth` writes for `exDayResult`: eight data rows, day 1's
five before day 2's three. -/
def exMonthFile : CsvFile :=
  ⟨"202305.csv", header12,
    [["a1"], ["a2"], ["a3"], ["a4"], ["a5"], ["b1"], ["b2"], ["b3"]], "utf-8-sig"⟩

/-- C6 witness: with five records on day 1 and three on day 2, the written
rows are the eight records in day order. -/
theorem month_rows_day_concat_witness :
    exMonthFile.dataRows = (List.range' 1 2).flatMap fun d => (exDayResult d).getD [] :=
  month_rows_day_concat 2023 5 2 exDayResult exMonthFile (by decide)

/- ### Per-month isolation of records -/

theorem processMonth_some_rows (y m n : Nat) (f : Nat → Option (List (List String)))
    (file : CsvFile) (h : processMonth y m n f = some file) :
    file.dataRows = (monthlyData n f).flatten := by
  rw [processMonth_some_file y m n f file h]

theorem fetch_result_rows_head (y m d : Nat) (resp : DayResponse)
    (recs : List (List String)) (h : (fetch_data y m d resp).result = some recs) :
    ∀ row ∈ recs, row.headD "" = dateStr y m d := by
  have h2 : (if resp.statusCode ≠ 200 then none
      else match resp.tableRows with
        | none => none
        | some rows => some (parseRows (dateStr y m d) rows)) = some recs := h
  by_cases hs : resp.statusCode ≠ 200
  · rw [if_pos hs] at h2
    exact absurd h2 (by simp)
  · rw [if_neg hs] at h2
    rcases ht : resp.tableRows with _ | rows
    · rw [ht] at h2
      exact absurd h2 (by simp)
    · rw [ht] at h2
      injection h2 with h2
      subst h2
      intro row hrow
      unfold parseRows at hrow
      obtain ⟨r, -, hp⟩ := List.mem_filterMap.1 hrow
      exact (processRow_some_shape _ _ _ hp).2.2

/-- C9: the per-month accumulation is fresh for each month, so every data row
of the file recorded for `(y, m)` carries the date string of a day of that
same year and month: no record leaks between months. -/
theorem month_records_dated (ey em ed : Nat) (world : Nat → Nat → Nat → DayResponse)
    (y m : Nat) (file : CsvFile) (row : List String)
    (hd : ed ≤ monthrange ey em)
    (hmem : (y, m, file) ∈ main_run ey em ed world)
    (hrow : row ∈ file.dataRows) :
    ∃ d, 1 ≤ d ∧ d ≤ monthrange y m ∧ row.headD "" = dateStr y m d := by
  unfold main_run at hmem
  simp only [List.mem_flatMap, List.mem_range'_1, ite_self] at hmem
  obtain ⟨year, hyear, month, hmonth, hmf⟩ := hmem
  rcases hpm : processMonth year month
      (if year = ey ∧ month = em then ed else monthrange year month)
      (fun day => (fetch_data year month day (world year month day)).result)
    with _ | file0
  · rw [hpm] at hmf
    simp at hmf
  · rw [hpm] at hmf
    simp only [List.mem_singleton, Prod.mk.injEq] at hmf
    obtain ⟨h1, h2, h3⟩ := hmf
    subst h1
    subst h2
    subst h3
    rw [processMonth_some_rows _ _ _ _ _ hpm, monthlyData_flatten] at hrow
    obtain ⟨day, hdaymem, hrowday⟩ := List.mem_flatMap.1 hrow
    rw [List.mem_range'_1] at hdaymem
    rcases hg : (fetch_data y m day (world y m day)).result with _ | recs
    · rw [hg] at hrowday
      simp at hrowday
    · rw [hg] at hrowday
      simp only [Option.getD_some] at hrowday
      refine ⟨day, hdaymem.1, ?_,
        fetch_result_rows_head y m day (world y m day) recs hg row hrowday⟩
      by_cases hc : y = ey ∧ m = em
      · rw [if_pos hc] at hdaymem
        obtain ⟨he1, he2⟩ := hc
        rw [he1, he2]
        omega
      · rw [if_neg hc] at hdaymem
        omega

/-- A network where every day answers 200 with the same one-row table. -/
def exWorld : Nat → Nat → Nat → DayResponse := fun _ _ _ =>
  ⟨200, some [["00:10", "a", "b", "c", "d", "e", "f", "g", "h", "i", "j"]]⟩

/-- The file `main_run 2009 1 1 exWorld` writes for January 2009. -/
def exC9File : CsvFile :=
  ⟨"200901.csv", header12,
    [["20090101", "00:10", "a", "b", "c", "d", "e", "f", "g", "h", "i", "j"]],
    "utf-8-sig"⟩

/-- C9 witness: the one record of the January 2009 file is dated 2009-01-DD
for a day of that month. -/
theorem month_records_dated_witness :
    ∃ d, 1 ≤ d ∧ d ≤ monthrange 2009 1 ∧
      (["20090101", "00:10", "a", "b", "c", "d", "e", "f", "g", "h", "i", "j"] :
        List String).headD "" = dateStr 2009 1 d :=
  month_records_dated 2009 1 1 exWorld 2009 1 exC9File
    ["20090101", "00:10", "a", "b", "c", "d", "e", "f", "g", "h", "i", "j"]
    (by decide) (by decide) (by decide)

/- ### The date enumeration -/

/-- Strict calendar order on (year, month, day) triples. -/
def dateLT (p q : Nat × Nat × Nat) : Prop :=
  p.1 < q.1 ∨ (p.1 = q.1 ∧ (p.2.1 < q.2.1 ∨ (p.2.1 = q.2.1 ∧ p.2.2 < q.2.2)))

instance (p q : Nat × Nat × Nat) : Decidable (dateLT p q) := by
  unfold dateLT
  infer_instance

/-- Calendar order on (year, month, day) triples, inclusive. -/
def dateLE (p q : Nat × Nat × Nat) : Prop := dateLT p q ∨ p = q

/-- `(y, m, d)` is a real calendar day. -/
def validDate (y m d : Nat) : Prop :=
  1 ≤ m ∧ m ≤ 12 ∧ 1 ≤ d ∧ d ≤ monthrange y m

/-- The day triples visited by main's nested loops (lines 79-93), in visit
order, with the start date 2009-01-01 fixed as in the source — so
`month_start` is `1 if year > start_year else start_month` with both
branches equal to 1 — and today given as `(endYear, endMonth, endDay)`. -/
def dateRange (endYear endMonth endDay : Nat) : List (Nat × Nat × Nat) :=
  (List.range' 2009 (endYear + 1 - 2009)).flatMap fun year =>
    let monthStart := if 2009 < year then 1 else 1
    let monthEnd := if year < endYear then 12 else endMonth
    (List.range' monthStart (monthEnd + 1 - monthStart)).flatMap fun month =>
      let dayEnd := if year = endYear ∧ month = endMonth then endDay
        else monthrange year month
      (List.range' 1 dayEnd).map fun day => (year, month, day)

theorem dateLT_ne (p q : Nat × Nat × Nat) (h : dateLT p q) : p ≠ q := by
  rintro rfl
  unfold dateLT at h
  rcases h with h | ⟨-, h | ⟨-, h⟩⟩ <;> omega

theorem dateRange_pairwise (ey em ed : Nat) :
    (dateRange ey em ed).Pairwise dateLT := by
  unfold dateRange
  refine List.pairwise_flatMap.2 ⟨fun year hyear => ?_, ?_⟩
  · refine List.pairwise_flatMap.2 ⟨fun month hmonth => ?_, ?_⟩
    · refine List.pairwise_map.2 ?_
      exact (List.pairwise_lt_range' 1 _).imp
        (fun h => Or.inr ⟨rfl, Or.inr ⟨rfl, h⟩⟩)
    · refine (List.pairwise_lt_range' _ _).imp ?_
      intro m1 m2 hlt x hx y hy
      obtain ⟨d1, -, rfl⟩ := List.mem_map.1 hx
      obtain ⟨d2, -, rfl⟩ := List.mem_map.1 hy
      exact Or.inr ⟨rfl, Or.inl hlt⟩
  · refine (List.pairwise_lt_range' _ _).imp ?_
    intro y1 y2 hlt x hx y hy
    obtain ⟨m1, -, hx2⟩ := List.mem_flatMap.1 hx
    obtain ⟨d1, -, rfl⟩ := List.mem_map.1 hx2
    obtain ⟨m2, -, hy2⟩ := List.mem_flatMap.1 hy
    obtain ⟨d2, -, rfl⟩ := List.mem_map.1 hy2
    exact Or.inl hlt

theorem dateRange_mem_iff (ey em ed : Nat) (hy : 2009 ≤ ey) (hm1 : 1 ≤ em)
    (hm2 : em ≤ 12) (hd1 : 1 ≤ ed) (hd2 : ed ≤ monthrange ey em) (y m d : Nat) :
    (y, m, d) ∈ dateRange ey em ed ↔
      2009 ≤ y ∧ validDate y m d ∧ dateLE (y, m, d) (ey, em, ed) := by
  unfold dateRange validDate dateLE dateLT
  simp only [List.mem_flatMap, List.mem_map, List.mem_range'_1, ite_self,
    Prod.mk.injEq]
  constructor
  · rintro ⟨year, ⟨hy1, hy2⟩, month, ⟨hmA, hmB⟩, day, ⟨hdA, hdB⟩, he1, he2, he3⟩
    rw [← he1, ← he2, ← he3]
    by_cases hyl : year < ey
    · rw [if_pos hyl] at hmB
      rw [if_neg (by omega : ¬(year = ey ∧ month = em))] at hdB
      exact ⟨hy1, ⟨hmA, by omega, hdA, by omega⟩, Or.inl (Or.inl hyl)⟩
    · have hyeq : year = ey := by omega
      subst hyeq
      rw [if_neg (by omega : ¬ year < year)] at hmB
      by_cases hmc : month = em
      · subst hmc
        rw [if_pos ⟨rfl, rfl⟩] at hdB
        refine ⟨hy1, ⟨hmA, by omega, hdA, by omega⟩, ?_⟩
        rcases Nat.lt_or_eq_of_le (by omega : day ≤ ed) with hlt | heq
        · exact Or.inl (Or.inr ⟨rfl, Or.inr ⟨rfl, hlt⟩⟩)
        · exact Or.inr ⟨rfl, rfl, heq⟩
      · rw [if_neg (fun hc => hmc hc.2)] at hdB
        exact ⟨hy1, ⟨hmA, by omega, hdA, by omega⟩,
          Or.inl (Or.inr ⟨rfl, Or.inl (by omega)⟩)⟩
  · rintro ⟨hge, ⟨hm1A, hm2A, hd1A, hd2A⟩, hle⟩
    refine ⟨y, ⟨hge, by omega⟩, m, ⟨hm1A, ?_⟩, d, ⟨hd1A, ?_⟩, rfl, rfl, rfl⟩
    · by_cases hyl : y < ey
      · rw [if_pos hyl]
        omega
      · rw [if_neg hyl]
        omega
    · by_cases hc : y = ey ∧ m = em
      · rw [if_pos hc]
        obtain ⟨he1, he2⟩ := hc
        subst he1
        subst he2
        omega
      · rw [if_neg hc]
        omega

/-- C2: the nested loops of `main`, for the fixed start 2009-01-01 and a
valid end date, visit the calendar days in strictly increasing order, with
no duplicates, and a triple is visited exactly when it is a real calendar
day lying between the start and the end date inclusive — every day in
range, including the partial last month, appears exactly once. -/
theorem date_enumeration_complete (ey em ed : Nat)
    (hy : 2009 ≤ ey) (hm1 : 1 ≤ em) (hm2 : em ≤ 12)
    (hd1 : 1 ≤ ed) (hd2 : ed ≤ monthrange ey em) :
    (dateRange ey em ed).Pairwise dateLT ∧ (dateRange ey em ed).Nodup ∧
      ∀ y m d, (y, m, d) ∈ dateRange ey em ed ↔
        2009 ≤ y ∧ validDate y m d ∧ dateLE (y, m, d) (ey, em, ed) :=
  ⟨dateRange_pairwise ey em ed,
    (dateRange_pairwise ey em ed).imp (fun h => dateLT_ne _ _ h),
    fun y m d => dateRange_mem_iff ey em ed hy hm1 hm2 hd1 hd2 y m d⟩

/-- C2 witness: the enumeration up to the end date 2009-01-03. -/
theorem date_enumeration_complete_witness :
    (dateRange 2009 1 3).Pairwise dateLT ∧ (dateRange 2009 1 3).Nodup ∧
      ∀ y m d, (y, m, d) ∈ dateRange 2009 1 3 ↔
        2009 ≤ y ∧ validDate y m d ∧ dateLE (y, m, d) (2009, 1, 3) :=
  date_enumeration_complete 2009 1 3 (by decide) (by decide) (by decide)
    (by decide) (by decide)
